import Mathlib

/-!
Verification development for the twitter-sniper-token-buyer-bot repository.

The definitions below are a shallow embedding of the TypeScript sources:
  src/services/monitoring-service.ts  (MonitoringService)
  src/services/solana-service.ts      (SolanaService)
  src/services/jupiter-api.ts         (JupiterAPI, amount validation only)
  src/config/environment.ts           (constants)

Modelling conventions:
  * JavaScript numbers are modelled as exact rationals; NaN is modelled as
    an absent value (Option ℚ = none).  IEEE-754 rounding above 2^53 is not
    modelled; parseInt is modelled with arbitrary precision.
  * Asynchronous callback code is modelled as atomic state-transition
    functions; each external call outcome is an explicit input
    (Except String _ for calls that can fail).
  * Every observable effect (baseline write, result-file append, pipeline
    invocation, pair removal, process exit, HTTP calls of the trade
    pipeline) is recorded as an action in an emitted action list, in the
    order the source performs it.
  * Base64 decoding of instruction payloads and transaction signing are
    kept opaque (the payload strings are carried through unchanged).
-/

/-! ## JavaScript primitive helpers -/

/-- One decimal digit accumulator step for parseInt. -/
def digitsVal (ds : List Char) : Int :=
  ds.foldl (fun acc c => acc * 10 + ((c.toNat : Int) - 48)) 0

/-- Model of the JavaScript parseInt applied with radix 10: skip leading
whitespace, optional sign, then take the maximal leading run of decimal
digits; none models NaN (no digits). -/
def jsParseInt (s : String) : Option Int :=
  let cs := s.data.dropWhile (fun c => c = ' ' ∨ c = '\t' ∨ c = '\n' ∨ c = '\r')
  let signed : Int × List Char :=
    match cs with
    | '-' :: rest => (-1, rest)
    | '+' :: rest => (1, rest)
    | _ => (1, cs)
  let ds := signed.2.takeWhile Char.isDigit
  if ds.isEmpty then none else some (signed.1 * digitsVal ds)

/-- JavaScript greater-than on two parseInt results: any comparison
involving NaN (none) is false. -/
def optIntGt : Option Int → Option Int → Bool
  | some a, some b => decide (b < a)
  | _, _ => false

/-- JavaScript string-or (a || b) for an optional first operand: an absent
or empty (falsy) first operand selects the second. -/
def jsOrStr (a : Option String) (b : String) : String :=
  match a with
  | some s => if s = "" then b else s
  | none => b

/-- Association-list lookup, modelling JavaScript object property read. -/
def lookupAssoc {α : Type} : List (String × α) → String → Option α
  | [], _ => none
  | p :: ps, k => if p.1 = k then some p.2 else lookupAssoc ps k

/-- Association-list update, modelling JavaScript object property write
(replaces the existing key in place, otherwise appends). -/
def setAssoc : List (String × String) → String → String → List (String × String)
  | [], k, v => [(k, v)]
  | p :: ps, k, v => if p.1 = k then (k, v) :: ps else p :: setAssoc ps k v

/-! ## Data model (src/types/index.ts) -/

/-- One watched pair from configuration (MonitoringConfig). -/
structure MonitoringConfig where
  username : String
  keyword : String
  tokenCA : Option String
  buyAmount : Option ℚ
deriving DecidableEq

/-- A watched pair after successful identifier resolution
(UserConfigWithId). -/
structure UserConfigWithId where
  username : String
  keyword : String
  tokenCA : Option String
  buyAmount : Option ℚ
  userId : String
deriving DecidableEq

/-- A fetched post as consumed by the monitoring service: the legacy tweet
object with id, optional id_str, optional full_text and text fields. -/
structure Tweet where
  id : String
  id_str : Option String
  full_text : Option String
  text : Option String
deriving DecidableEq

/-- The post identifier actually used by the code:
currentTweet.id_str || currentTweet.id. -/
def tweetIdOf (t : Tweet) : String := jsOrStr t.id_str t.id

/-- The post text actually used by the code:
currentTweet.full_text || currentTweet.text || "". -/
def tweetTextOf (t : Tweet) : String := jsOrStr t.full_text (jsOrStr t.text "")

/-- A detection record as persisted to the results file (TweetResult). -/
structure TweetResult where
  username : String
  keyword : String
  tokenCA : Option String
  tweetText : String
  tweetId : String
  timestamp : String
  detectedAt : String
  purchaseExecuted : Option Bool := none
  purchaseAmount : Option ℚ := none
  purchaseTimestamp : Option String := none
  buyTxId : Option String := none
  purchaseError : Option String := none
deriving DecidableEq

/-! ## Match evaluator (monitoring-service.ts lines 217-223) -/

/-- Whitespace characters removed by the JavaScript String.trim (the
forms that occur in configuration values). -/
def isJsSpace (c : Char) : Bool :=
  decide (c = ' ' ∨ c = '\t' ∨ c = '\n' ∨ c = '\r')

/-- JavaScript String.trim on the character list. -/
def trimChars (cs : List Char) : List Char :=
  ((cs.dropWhile isJsSpace).reverse.dropWhile isJsSpace).reverse

/-- JavaScript String.toLowerCase on the character list (ASCII range, the
range exercised by the configuration). -/
def lowerChars (cs : List Char) : List Char := cs.map Char.toLower

/-- The match predicate of checkForNewTweets: an empty-after-trim keyword
always matches, otherwise case-insensitive substring containment of the
(untrimmed) keyword in the post text. -/
def hasKeyword (keyword text : String) : Bool :=
  if trimChars keyword.data = [] then true
  else decide (lowerChars keyword.data <:+: lowerChars text.data)

/-- The match predicate as the specification words it: an empty or
whitespace-only keyword matches every post; otherwise the post text must
contain the keyword as a case-insensitive substring (some decomposition
of the lowercased text exhibits the lowercased keyword). -/
def SpecKeywordMatch (keyword text : String) : Prop :=
  (∀ c ∈ keyword.data, isJsSpace c = true) ∨
    ∃ pre post, lowerChars text.data = pre ++ lowerChars keyword.data ++ post

/-! ## Trade execution pipeline (solana-service.ts, jupiter-api.ts) -/

/-- An account reference inside a Jupiter instruction payload. -/
structure AccountMeta where
  pubkey : String
  isSigner : Bool
  isWritable : Bool
deriving DecidableEq

/-- A serialized instruction as returned by the Jupiter
swap-instructions endpoint. -/
structure JupInstruction where
  programId : String
  accounts : List AccountMeta
  data : String
deriving DecidableEq

/-- A web3 TransactionInstruction: either one deserialized from a Jupiter
payload, or a SystemProgram.transfer (used for the tip). -/
inductive TransactionInstruction where
  | decoded (programId : String) (keys : List AccountMeta) (data : String)
  | transfer (fromPubkey toPubkey : String) (lamports : Nat)
deriving DecidableEq

/-- SolanaService.deserializeInstruction: rebuild a TransactionInstruction
from a Jupiter payload (keys, program id and base64 data carried over). -/
def deserializeInstruction (i : JupInstruction) : TransactionInstruction :=
  .decoded i.programId i.accounts i.data

/-- Response of the Jupiter quote endpoint (only the field the code
inspects). -/
structure JupiterQuote where
  outAmount : Option String
deriving DecidableEq

/-- Response of the Jupiter swap-instructions endpoint. -/
structure SwapInstructionsResp where
  computeBudgetInstructions : List JupInstruction
  setupInstructions : List JupInstruction
  swapInstruction : JupInstruction
  cleanupInstruction : JupInstruction
  addressLookupTableAddresses : List String
deriving DecidableEq

/-- Astralane relay JSON-RPC response body. -/
structure AstralaneResponse where
  result : Option String
  error : Option String
deriving DecidableEq

instance {ε α : Type} [DecidableEq ε] [DecidableEq α] : DecidableEq (Except ε α) := fun a b =>
  match a, b with
  | .ok x, .ok y =>
      if h : x = y then isTrue (by rw [h]) else isFalse (by intro hh; cases hh; exact h rfl)
  | .error x, .error y =>
      if h : x = y then isTrue (by rw [h]) else isFalse (by intro hh; cases hh; exact h rfl)
  | .ok _, .error _ => isFalse (by intro hh; cases hh)
  | .error _, .ok _ => isFalse (by intro hh; cases hh)

/-- Outcomes of the external calls one executeTokenPurchase invocation can
make, provided as explicit inputs to the embedding. -/
structure PurchaseEnv where
  slot : Except String Nat
  quote : Except String (Option JupiterQuote)
  swapInstructions : Except String SwapInstructionsResp
  lookupTables : List (String × String)
  blockhash : Except String String
  relay : Except String AstralaneResponse
deriving DecidableEq

/-- Observable external calls of the trade pipeline, in program order. -/
inductive PipeAction where
  | getSlot
  | quoteCall (inputMint outputMint : String) (amount : Int)
  | swapInstructionsCall
  | lookupFetch (keys : List String)
  | blockhashFetch
  | submit (instructions : List TransactionInstruction)
      (lookupTables : List (String × String))
deriving DecidableEq

/-- Successful purchase record (PurchaseResult). -/
structure PurchaseResult where
  tokenCA : String
  amountInSOL : ℚ
  timestamp : String
  buyTxId : String
deriving DecidableEq

/-- Result of one executeTokenPurchase invocation: the returned value
(none models the tagged failure return false) plus the external calls it
performed. -/
structure PurchaseRun where
  result : Option PurchaseResult
  actions : List PipeAction
deriving DecidableEq

/-- Constant INPUT_MINT from environment.ts (wrapped SOL). -/
def INPUT_MINT : String := "So11111111111111111111111111111111111111112"

/-- Constant MIN_TIP_AMOUNT from environment.ts, in lamports. -/
def MIN_TIP_AMOUNT : Nat := 100000

/-- The well-known Astralane tip account hardcoded in solana-service.ts. -/
def TIP_ACCOUNT : String := "astra4uejePWneqNaJKuFFA8oonqCE1sqF6b45kDMZm"

/-- Conversion from fractional SOL to lamports as performed on line 146 of
solana-service.ts: Math.floor(amountInSOL * 1e9), computed on the exact
rational representation; solToLamports_eq_floor below shows this equals
the floor of q * 1e9. -/
def solToLamports (q : ℚ) : Int := (q.num * 1000000000) / (q.den : Int)

/-- The tip instruction built by sendTxTipped: a SystemProgram.transfer of
MIN_TIP_AMOUNT lamports from the buyer to the tip account. -/
def tipInstruction (buyerPk : String) : TransactionInstruction :=
  .transfer buyerPk TIP_ACCOUNT MIN_TIP_AMOUNT

/-- SolanaService.getAddressLookupTableAccounts: fetch each referenced
table and silently skip addresses with no on-chain account. -/
def resolveLookupTables (tables : List (String × String)) (keys : List String) :
    List (String × String) :=
  keys.filterMap (fun k => (lookupAssoc tables k).map (fun st => (k, st)))

/-- SolanaService.sendTxTipped: append the tip instruction, fetch a recent
blockhash, compile, sign, serialize and POST to the relay.  Returns the
relay response (or the thrown transport error) together with the external
calls made. -/
def sendTxTipped (buyerPk : String) (ixs : List TransactionInstruction)
    (luts : List (String × String)) (blockhash : Except String String)
    (relay : Except String AstralaneResponse) :
    Except String AstralaneResponse × List PipeAction :=
  match blockhash with
  | .error e => (.error e, [.blockhashFetch])
  | .ok _ =>
    match relay with
    | .error e =>
      (.error e, [.blockhashFetch, .submit (ixs ++ [tipInstruction buyerPk]) luts])
    | .ok body =>
      (.ok body, [.blockhashFetch, .submit (ixs ++ [tipInstruction buyerPk]) luts])

/-- Lines 178-187 of solana-service.ts: the swap instruction list built
from the Jupiter response, in order compute-budget, setup, swap, cleanup. -/
def swapIxsOf (instrs : SwapInstructionsResp) : List TransactionInstruction :=
  instrs.computeBudgetInstructions.map deserializeInstruction ++
  instrs.setupInstructions.map deserializeInstruction ++
  [deserializeInstruction instrs.swapInstruction,
   deserializeInstruction instrs.cleanupInstruction]

/-- Lines 202-218 of solana-service.ts: interpretation of the relay
response; a transport error (thrown by axios, caught by the try/catch) and
a body with a falsy result field are failures, a body with a non-empty
result is a success carrying it as the transaction identifier. -/
def purchaseOutcome (tokenCA : String) (q : ℚ) (now : String) :
    Except String AstralaneResponse → Option PurchaseResult
  | .error _ => none
  | .ok body =>
    if jsOrStr body.result "" = "" then none
    else some ⟨tokenCA, q, now, jsOrStr body.result ""⟩

/-- SolanaService.executeTokenPurchase: validate the amount, then run the
stages slot-check, quote, instruction assembly, lookup-table resolution
and tipped submission strictly in order, returning none (the tagged
failure, source value false) as soon as a stage fails; the surrounding
try/catch of the source makes every stage error a tagged failure rather
than an uncaught exception, which is mirrored here by totality. -/
def executeTokenPurchase (buyerPk tokenCA : String) (amountInSOL : Option ℚ)
    (penv : PurchaseEnv) (now : String) : PurchaseRun :=
  match amountInSOL with
  | none => ⟨none, []⟩
  | some q =>
    if q ≤ 0 then ⟨none, []⟩
    else
      let amountIn := solToLamports q
      match penv.slot with
      | .error _ => ⟨none, [.getSlot]⟩
      | .ok _ =>
        if amountIn ≤ 0 then ⟨none, [.getSlot]⟩
        else
          match penv.quote with
          | .error _ => ⟨none, [.getSlot, .quoteCall INPUT_MINT tokenCA amountIn]⟩
          | .ok none => ⟨none, [.getSlot, .quoteCall INPUT_MINT tokenCA amountIn]⟩
          | .ok (some quote) =>
            if jsOrStr quote.outAmount "" = "" then
              ⟨none, [.getSlot, .quoteCall INPUT_MINT tokenCA amountIn]⟩
            else
              match penv.swapInstructions with
              | .error _ =>
                ⟨none, [.getSlot, .quoteCall INPUT_MINT tokenCA amountIn,
                        .swapInstructionsCall]⟩
              | .ok instrs =>
                ⟨purchaseOutcome tokenCA q now
                   (sendTxTipped buyerPk (swapIxsOf instrs)
                     (resolveLookupTables penv.lookupTables
                       instrs.addressLookupTableAddresses)
                     penv.blockhash penv.relay).1,
                 [.getSlot, .quoteCall INPUT_MINT tokenCA amountIn,
                  .swapInstructionsCall,
                  .lookupFetch instrs.addressLookupTableAddresses] ++
                 (sendTxTipped buyerPk (swapIxsOf instrs)
                   (resolveLookupTables penv.lookupTables
                     instrs.addressLookupTableAddresses)
                   penv.blockhash penv.relay).2⟩

/-! ## Monitoring scheduler (monitoring-service.ts) -/

/-- Mutable state of MonitoringService that the claims are about:
the baseline map, the active pair set, the cycling array, the cycling
index, the monitoring flag and whether process.exit has been invoked. -/
structure MonState where
  lastProcessedTweetIds : List (String × String)
  activePairs : List String
  userConfigsWithIds : List UserConfigWithId
  currentUserIndex : Nat
  isMonitoring : Bool
  exited : Bool
deriving DecidableEq

/-- The pair key used for the active set: username-keyword. -/
def pairKey (username keyword : String) : String := username ++ "-" ++ keyword

/-- Set-insert into the active pair list (Set.add semantics). -/
def addPair (l : List String) (k : String) : List String :=
  if k ∈ l then l else l ++ [k]

/-- Observable effects of one scheduler visit, in the order the source
performs them. -/
inductive VisitAction where
  | setBaseline (username newId : String)
  | advanceBaseline (username newId : String)
  | matchEvent (r : TweetResult)
  | saveResult (r : TweetResult)
  | saveBuyTransaction (r : TweetResult)
  | invokePipeline (tokenCA : String) (amount : Option ℚ)
  | pipeline (a : PipeAction)
  | removeActivePair (key : String)
  | exitProcess
deriving DecidableEq

/-- The MatchEvents (TweetResult creations) recorded in an action list. -/
def matchEventsOf (as : List VisitAction) : List TweetResult :=
  as.filterMap fun a => match a with | .matchEvent r => some r | _ => none

/-- The records appended to the results file, in order. -/
def savedResultsOf (as : List VisitAction) : List TweetResult :=
  as.filterMap fun a => match a with | .saveResult r => some r | _ => none

/-- The relay submissions performed by nested pipeline invocations. -/
def pipeSubmitsOf (as : List VisitAction) : List (List TransactionInstruction) :=
  as.filterMap fun a =>
    match a with | .pipeline (.submit ixs _) => some ixs | _ => none

/-- The relay submissions in a pipeline action list. -/
def submitsOf (as : List PipeAction) : List (List TransactionInstruction) :=
  as.filterMap fun a => match a with | .submit ixs _ => some ixs | _ => none

/-- MonitoringService.stopMonitoringPair: delete the pair key from the
active set, filter the pair out of the cycling array, and if the active
set is now empty stop all monitoring and exit the process. -/
def stopMonitoringPair (s : MonState) (cfg : UserConfigWithId) :
    MonState × List VisitAction :=
  if (s.activePairs.filter (fun k => k ≠ pairKey cfg.username cfg.keyword)).isEmpty then
    ({ lastProcessedTweetIds := s.lastProcessedTweetIds, activePairs := [],
       userConfigsWithIds := [], currentUserIndex := 0, isMonitoring := false,
       exited := true },
     [.removeActivePair (pairKey cfg.username cfg.keyword), .exitProcess])
  else
    ({ s with
        activePairs :=
          s.activePairs.filter (fun k => k ≠ pairKey cfg.username cfg.keyword),
        userConfigsWithIds :=
          s.userConfigsWithIds.filter
            (fun u => ¬(u.username = cfg.username ∧ u.keyword = cfg.keyword)) },
     [.removeActivePair (pairKey cfg.username cfg.keyword)])

/-- Lines 287-290: the record update written on purchase failure. -/
def failedRecord (r0 : TweetResult) : TweetResult :=
  { r0 with purchaseExecuted := some false, purchaseError := some "Purchase execution failed" }

/-- Lines 275-279: the record update written on purchase success. -/
def successRecord (r0 : TweetResult) (amt : Option ℚ) (now txid : String) :
    TweetResult :=
  { r0 with purchaseExecuted := some true, purchaseAmount := amt, purchaseTimestamp := some now, buyTxId := some txid }

/-- Lines 259-298 of checkForNewTweets: execute the purchase when a token
address is configured and trading is enabled, then persist the updated
record; pure in the scheduler state. -/
def purchaseActions (solanaEnabled : Bool) (buyerPk : String)
    (cfg : UserConfigWithId) (r0 : TweetResult) (penv : PurchaseEnv)
    (now : String) : List VisitAction :=
  match cfg.tokenCA, solanaEnabled with
  | some ca, true =>
    let run := executeTokenPurchase buyerPk ca cfg.buyAmount penv now
    let base := [VisitAction.invokePipeline ca cfg.buyAmount] ++
      run.actions.map VisitAction.pipeline
    match run.result with
    | some pr =>
      if pr.buyTxId = "" then base ++ [.saveResult (failedRecord r0)]
      else
        base ++ [.saveResult (successRecord r0 cfg.buyAmount now pr.buyTxId),
                 .saveBuyTransaction (successRecord r0 cfg.buyAmount now pr.buyTxId)]
    | none => base ++ [.saveResult (failedRecord r0)]
  | _, _ => []

/-- Lines 225-308 of checkForNewTweets: the match branch.  Creates the
MatchEvent, persists it, runs the optional purchase, and finally removes
the pair from the active set (after the pipeline invocation). -/
def handleMatch (solanaEnabled : Bool) (buyerPk : String) (s1 : MonState)
    (cfg : UserConfigWithId) (r0 : TweetResult) (penv : PurchaseEnv)
    (now : String) : MonState × List VisitAction :=
  ((stopMonitoringPair s1 cfg).1,
   [.matchEvent r0, .saveResult r0] ++
     purchaseActions solanaEnabled buyerPk cfg r0 penv now ++
     (stopMonitoringPair s1 cfg).2)

/-- The baseline write of line 214: lastProcessedTweetIds[username] = id. -/
def advanceState (s : MonState) (username tid : String) : MonState :=
  { s with lastProcessedTweetIds := setAssoc s.lastProcessedTweetIds username tid }

/-- The TweetResult record built on lines 234-242 for a matching post. -/
def matchRecord (cfg : UserConfigWithId) (t : Tweet) (now : String) : TweetResult :=
  { username := cfg.username, keyword := cfg.keyword, tokenCA := cfg.tokenCA,
    tweetText := tweetTextOf t, tweetId := tweetIdOf t,
    timestamp := now, detectedAt := now }

/-- MonitoringService.checkForNewTweets for one pair: the fetch outcome is
an explicit input; on a fetched post strictly newer (numerically) than a
set baseline, the baseline is advanced first, then the keyword predicate
is evaluated, and on a match the match branch runs. -/
def checkForNewTweets (solanaEnabled : Bool) (buyerPk : String) (s : MonState)
    (cfg : UserConfigWithId) (fetch : Except String (List Tweet))
    (penv : PurchaseEnv) (now : String) : MonState × List VisitAction :=
  match fetch with
  | .error _ => (s, [])
  | .ok [] => (s, [])
  | .ok (currentTweet :: _) =>
    let currentTweetId := tweetIdOf currentTweet
    match lookupAssoc s.lastProcessedTweetIds cfg.username with
    | none => (s, [])
    | some lastTweetId =>
      if lastTweetId = "" then (s, [])
      else if currentTweetId = lastTweetId then (s, [])
      else if optIntGt (jsParseInt currentTweetId) (jsParseInt lastTweetId) then
        let s1 := advanceState s cfg.username currentTweetId
        if hasKeyword cfg.keyword (tweetTextOf currentTweet) then
          let hm := handleMatch solanaEnabled buyerPk s1 cfg
            (matchRecord cfg currentTweet now) penv now
          (hm.1, .advanceBaseline cfg.username currentTweetId :: hm.2)
        else (s1, [.advanceBaseline cfg.username currentTweetId])
      else (s, [])

/-- MonitoringService.setInitialBaselineForCycling: record the first
fetched post identifier as baseline; fetch errors and empty fetches leave
the baseline unset. -/
def setInitialBaselineForCycling (s : MonState) (username : String)
    (fetch : Except String (List Tweet)) : MonState × List VisitAction :=
  match fetch with
  | .error _ => (s, [])
  | .ok [] => (s, [])
  | .ok (t :: _) =>
    ({ s with lastProcessedTweetIds :=
         setAssoc s.lastProcessedTweetIds username (tweetIdOf t) },
     [.setBaseline username (tweetIdOf t)])

/-- Inputs consumed by one tick of the cycling interval. -/
structure TickInput where
  fetch : Except String (List Tweet)
  penv : PurchaseEnv
  now : String

/-- One firing of the interval installed by startCyclingMonitoring.  The
callback first evaluates userConfigsWithIds[currentUserIndex].username for
a log line; when that element is undefined this access throws (the
length-zero guard of the source sits after it and is unreachable).
Otherwise the current pair is visited and the index advances modulo the
(possibly just shortened) cycling array. -/
def cyclingTick (solanaEnabled : Bool) (buyerPk : String) (s : MonState)
    (inp : TickInput) : Except String (MonState × List VisitAction) :=
  if s.exited then .ok (s, [])
  else
    match s.userConfigsWithIds[s.currentUserIndex]? with
    | none => .error "TypeError: cannot read properties of undefined (reading username)"
    | some currentConfig =>
      let out := checkForNewTweets solanaEnabled buyerPk s currentConfig
        inp.fetch inp.penv inp.now
      if out.1.exited then .ok out
      else .ok ({ out.1 with currentUserIndex :=
        (s.currentUserIndex + 1) % out.1.userConfigsWithIds.length }, out.2)

/-- Repeated scheduler ticks; a thrown tick crashes the process, ending
the trace. -/
def runTrace (solanaEnabled : Bool) (buyerPk : String) :
    MonState → List TickInput → MonState × List VisitAction
  | s, [] => (s, [])
  | s, i :: is =>
    match cyclingTick solanaEnabled buyerPk s i with
    | .error _ => (s, [])
    | .ok (s1, as) =>
      let rest := runTrace solanaEnabled buyerPk s1 is
      (rest.1, as ++ rest.2)

/-! ## Initialization (start, initializeAllUsers) -/

/-- Outcome of the identifier resolution and initial baseline fetch for
one configured pair. -/
inductive InitOutcome where
  | idError (e : String)
  | resolved (userId : String) (baselineFetch : Except String (List Tweet))

/-- State after MonitoringService.start has registered all configured
pairs in the active set, before initializeAllUsers runs. -/
def startState (cfgs : List MonitoringConfig) : MonState :=
  { lastProcessedTweetIds := [],
    activePairs := cfgs.foldl (fun l c => addPair l (pairKey c.username c.keyword)) [],
    userConfigsWithIds := [], currentUserIndex := 0,
    isMonitoring := true, exited := false }

/-- One pair's initialization: a failed identifier resolution removes the
pair from the active set permanently; a successful one appends the
resolved pair to the cycling array and records the initial baseline. -/
def initStep (acc : MonState) (p : MonitoringConfig × InitOutcome) : MonState :=
  match p.2 with
  | .idError _ =>
    { acc with activePairs :=
        acc.activePairs.filter (fun k => k ≠ pairKey p.1.username p.1.keyword) }
  | .resolved uid bf =>
    let acc1 := { acc with userConfigsWithIds := acc.userConfigsWithIds ++
      [⟨p.1.username, p.1.keyword, p.1.tokenCA, p.1.buyAmount, uid⟩] }
    (setInitialBaselineForCycling acc1 p.1.username bf).1

/-- MonitoringService.initializeAllUsers over all configured pairs. -/
def initializeAllUsers (cfgs : List (MonitoringConfig × InitOutcome)) : MonState :=
  cfgs.foldl initStep (startState (cfgs.map Prod.fst))

/-! ## Shared concrete inputs for witnesses and counterexamples -/

/-- A purchase environment in which every external call fails. -/
def egPenvFail : PurchaseEnv :=
  ⟨.error "net", .error "net", .error "net", [], .error "net", .error "net"⟩

/-- The swap-instructions response used by the concrete environments; the
second lookup-table address has no on-chain account and is skipped. -/
def egInstrs : SwapInstructionsResp :=
  ⟨[⟨"cbProg", [], "cb"⟩], [⟨"setupProg", [], "su"⟩],
   ⟨"swapProg", [], "sw"⟩, ⟨"cleanProg", [], "cl"⟩, ["lut1", "lutMissing"]⟩

/-- A purchase environment in which every stage succeeds. -/
def egPenvOk : PurchaseEnv :=
  ⟨.ok 1, .ok (some ⟨some "42"⟩), .ok egInstrs,
   [("lut1", "state1")], .ok "bh", .ok ⟨some "tx123", none⟩⟩

def egTweet101 : Tweet := ⟨"101", none, some "Coin launch now", none⟩

def egTweet10 : Tweet := ⟨"10", none, some "hello world", none⟩

def egCfgCoin : UserConfigWithId :=
  ⟨"alice", "coin", some "CA1", some (Rat.divInt 3 20000), "uid1"⟩

def egCfgDog : UserConfigWithId :=
  ⟨"alice", "dog", none, some (Rat.divInt 3 20000), "uid1"⟩

def egCfgAny : UserConfigWithId :=
  ⟨"alice", "", none, some (Rat.divInt 3 20000), "uid1"⟩

/-- Two active pairs sharing the handle alice with keywords coin and dog. -/
def egStateTwo : MonState :=
  ⟨[("alice", "100")],
   [pairKey "alice" "coin", pairKey "alice" "dog"],
   [egCfgCoin, egCfgDog], 0, true, false⟩

/-- One active pair with baseline "9" (numerically below "10" but
lexicographically above it). -/
def egStateNine : MonState :=
  ⟨[("alice", "9")], [pairKey "alice" ""], [egCfgAny], 0, true, false⟩

/-! ## C5: tagged failures, no submit on quote failure, persistence -/

/-- Failure of the quote stage: the HTTP call fails, the body is null, or
the body has no usable outAmount (the falsy check of line 157). -/
def QuoteFails (penv : PurchaseEnv) : Prop :=
  (∃ e, penv.quote = .error e) ∨ penv.quote = .ok none ∨
    (∃ qt, penv.quote = .ok (some qt) ∧ jsOrStr qt.outAmount "" = "")

/-- A purchase environment whose quote stage fails with HTTP 500 but whose
other stages would succeed. -/
def egPenvQuote500 : PurchaseEnv :=
  ⟨.ok 1, .error "Jupiter API failed: 500 Internal Server Error",
   .ok ⟨[⟨"cbProg", [], "cb"⟩], [⟨"setupProg", [], "su"⟩],
        ⟨"swapProg", [], "sw"⟩, ⟨"cleanProg", [], "cl"⟩, ["lut1"]⟩,
   [("lut1", "state1")], .ok "bh", .ok ⟨some "tx123", none⟩⟩

/-! ## C6: relay response interpretation -/

/-- All stages succeed; the relay body carries BOTH a non-empty result and
an error field. -/
def egPenvBothFields : PurchaseEnv :=
  ⟨.ok 1, .ok (some ⟨some "42"⟩), .ok egInstrs, [("lut1", "state1")],
   .ok "bh", .ok ⟨some "tx123", some "relay reported error"⟩⟩

/-- All stages succeed; the relay answers HTTP 200 with an error body and
no result. -/
def egPenvErrorBody : PurchaseEnv :=
  ⟨.ok 1, .ok (some ⟨some "42"⟩), .ok egInstrs, [("lut1", "state1")],
   .ok "bh", .ok ⟨none, some "sendTransaction failed"⟩⟩

/-! ## C7: the tick crashes when the cycling array is empty -/

/-- A single configured pair whose identifier resolution fails. -/
def egFailedInit : List (MonitoringConfig × InitOutcome) :=
  [(⟨"alice", "coin", none, some (Rat.divInt 1 10000)⟩,
    .idError "No user ID found in response")]

/-! ## C1: at-most-once matching; removal happens after the pipeline -/

/-- Recognizer for the removal of a pair from the active set. -/
def isRemoveActivePair : VisitAction → Bool
  | .removeActivePair _ => true
  | _ => false

/-- Recognizer for the invocation of the trade execution pipeline. -/
def isInvokePipeline : VisitAction → Bool
  | .invokePipeline _ _ => true
  | _ => false

/-- The ordering asserted by the claim, evaluated on the action list of a
visit: the pair removal occurs strictly before the pipeline invocation. -/
def removalPrecedesInvocation (as : List VisitAction) : Bool :=
  match as.findIdx? isRemoveActivePair, as.findIdx? isInvokePipeline with
  | some i, some j => decide (i < j)
  | _, _ => false

/-- One active pair with a token address and baseline "100". -/
def egStateOne : MonState :=
  ⟨[("alice", "100")], [pairKey "alice" "coin"], [egCfgCoin], 0, true, false⟩

/-- A pair (username, keyword) still present in the cycling array. -/
def PairLive (s : MonState) (u k : String) : Prop :=
  ∃ c ∈ s.userConfigsWithIds, c.username = u ∧ c.keyword = k

/-- The MatchEvents of an action list belonging to one watched pair. -/
def matchEventsFor (u k : String) (as : List VisitAction) : List TweetResult :=
  (matchEventsOf as).filter (fun r => r.username = u ∧ r.keyword = k)

/-! ## C3: the initial baseline, and visits with a missing baseline -/

/-- One active pair with no baseline recorded. -/
def egStateNoBaseline : MonState :=
  ⟨[], [pairKey "alice" "coin"], [egCfgCoin], 0, true, false⟩

/-- Reachability of baseline values: the current baseline is the starting
one, or numerically strictly above it. -/
def BaselineReach (b b' : String) : Prop :=
  b' = b ∨ ∃ n m : Int, jsParseInt b = some n ∧ jsParseInt b' = some m ∧ n < m

/-- The baseline for u is set, non-empty, and reachable from b. -/
def BaselineInv (u b : String) (s : MonState) : Prop :=
  ∃ b', lookupAssoc s.lastProcessedTweetIds u = some b' ∧ b' ≠ "" ∧
    BaselineReach b b'

/-! ## Theorems -/

theorem solToLamports_eq_floor (q : ℚ) : solToLamports q = ⌊q * 1000000000⌋ := by
  have h : q * 1000000000 = ((q.num * 1000000000 : ℤ) : ℚ) / ((q.den : ℕ) : ℚ) := by
    conv_lhs => rw [← Rat.num_div_den q]
    push_cast
    ring
  rw [solToLamports, h, Rat.floor_intCast_div_natCast]

/-! ## Basic lemmas about the helpers -/

theorem lookupAssoc_setAssoc_self (m : List (String × String)) (k v : String) :
    lookupAssoc (setAssoc m k v) k = some v := by
  induction m with
  | nil => simp [setAssoc, lookupAssoc]
  | cons p ps ih =>
    by_cases h : p.1 = k
    · simp [setAssoc, h, lookupAssoc]
    · simp [setAssoc, h, lookupAssoc, ih]

theorem lookupAssoc_setAssoc_ne (m : List (String × String)) (k v u : String)
    (h : u ≠ k) : lookupAssoc (setAssoc m k v) u = lookupAssoc m u := by
  induction m with
  | nil =>
    simp only [setAssoc, lookupAssoc]
    rw [if_neg (Ne.symm h)]
  | cons p ps ih =>
    by_cases hp : p.1 = k
    · subst hp
      simp only [setAssoc, if_pos rfl, lookupAssoc]
      rw [if_neg (Ne.symm h), if_neg (Ne.symm h)]
    · simp only [setAssoc, if_neg hp, lookupAssoc, ih]

theorem optIntGt_eq_true_iff (a b : Option Int) :
    optIntGt a b = true ↔ ∃ x y, a = some x ∧ b = some y ∧ y < x := by
  cases a with
  | none => simp [optIntGt]
  | some x =>
    cases b with
    | none => simp [optIntGt]
    | some y => simp [optIntGt]

theorem trimChars_eq_nil_iff (cs : List Char) :
    trimChars cs = [] ↔ ∀ c ∈ cs, isJsSpace c = true := by
  unfold trimChars
  rw [List.reverse_eq_nil_iff, List.dropWhile_eq_nil_iff]
  constructor
  · intro h c hc
    have hsplit := List.takeWhile_append_dropWhile (p := isJsSpace) (l := cs)
    rw [← hsplit] at hc
    rcases List.mem_append.mp hc with h1 | h1
    · exact List.mem_takeWhile_imp h1
    · exact h c (List.mem_reverse.mpr h1)
  · intro h c hc
    exact h c ((List.dropWhile_sublist isJsSpace).subset (List.mem_reverse.mp hc))

/-- C8: the match predicate is a pure function of post text and trigger
keyword; an empty or whitespace-only keyword matches every post, and a
non-empty keyword matches exactly when the post text contains the keyword
as a case-insensitive substring; in particular text "Coin Launch" matches
keyword "coin". -/
theorem match_predicate_spec :
    (∀ keyword text, hasKeyword keyword text = true ↔ SpecKeywordMatch keyword text) ∧
    hasKeyword "coin" "Coin Launch" = true := by
  constructor
  · intro keyword text
    unfold hasKeyword SpecKeywordMatch
    by_cases h : trimChars keyword.data = []
    · have hall := (trimChars_eq_nil_iff keyword.data).mp h
      rw [if_pos h]
      constructor
      · intro _
        exact Or.inl hall
      · intro _
        rfl
    · have hws : ¬ ∀ c ∈ keyword.data, isJsSpace c = true := by
        intro hall
        exact h ((trimChars_eq_nil_iff keyword.data).mpr hall)
      simp only [h, if_false, decide_eq_true_eq, hws, false_or]
      constructor
      · rintro ⟨s, t, hst⟩
        exact ⟨s, t, hst.symm⟩
      · rintro ⟨pre, post, hpp⟩
        exact ⟨pre, post, hpp.symm⟩
  · decide

theorem sanity_exec_quote_fail :
    (executeTokenPurchase "bp" "ca" (some (Rat.divInt 1 10))
      ⟨.ok 1, .error "HTTP 500", .error "x", [], .ok "bh", .error "x"⟩ "t").result = none := by
  decide

/-! ## Structural lemmas about one scheduler visit -/

theorem matchEventsOf_append (a b : List VisitAction) :
    matchEventsOf (a ++ b) = matchEventsOf a ++ matchEventsOf b :=
  List.filterMap_append a b _

theorem matchEventsOf_pipeline_map (pas : List PipeAction) :
    matchEventsOf (pas.map VisitAction.pipeline) = [] := by
  induction pas with
  | nil => rfl
  | cons a l ih => simp [matchEventsOf, List.filterMap_cons] at ih ⊢

theorem matchEventsOf_purchaseActions (solE : Bool) (bp : String)
    (cfg : UserConfigWithId) (r0 : TweetResult) (penv : PurchaseEnv)
    (now : String) :
    matchEventsOf (purchaseActions solE bp cfg r0 penv now) = [] := by
  unfold purchaseActions
  rcases hc : cfg.tokenCA with _ | ca <;> cases solE
  · rfl
  · rfl
  · rfl
  · rcases hr : (executeTokenPurchase bp ca cfg.buyAmount penv now).result with _ | pr
    · simp [hr, matchEventsOf_append, matchEventsOf_pipeline_map, matchEventsOf]
    · simp only [hr]
      split <;>
        simp [matchEventsOf_append, matchEventsOf_pipeline_map, matchEventsOf]

theorem matchEventsOf_stop (s : MonState) (cfg : UserConfigWithId) :
    matchEventsOf (stopMonitoringPair s cfg).2 = [] := by
  unfold stopMonitoringPair
  split <;> rfl

theorem handleMatch_events (solE : Bool) (bp : String) (s1 : MonState)
    (cfg : UserConfigWithId) (r0 : TweetResult) (penv : PurchaseEnv)
    (now : String) :
    matchEventsOf (handleMatch solE bp s1 cfg r0 penv now).2 = [r0] := by
  unfold handleMatch
  rw [show ([VisitAction.matchEvent r0, VisitAction.saveResult r0] ++
      purchaseActions solE bp cfg r0 penv now ++ (stopMonitoringPair s1 cfg).2 :
      List VisitAction) =
    [VisitAction.matchEvent r0, VisitAction.saveResult r0] ++
      (purchaseActions solE bp cfg r0 penv now ++ (stopMonitoringPair s1 cfg).2)
    from by simp]
  rw [matchEventsOf_append, matchEventsOf_append,
    matchEventsOf_purchaseActions, matchEventsOf_stop]
  rfl

theorem handleMatch_state (solE : Bool) (bp : String) (s1 : MonState)
    (cfg : UserConfigWithId) (r0 : TweetResult) (penv : PurchaseEnv)
    (now : String) :
    (handleMatch solE bp s1 cfg r0 penv now).1 = (stopMonitoringPair s1 cfg).1 := rfl

theorem stopMonitoringPair_configs_mem (s : MonState) (cfg c' : UserConfigWithId)
    (h : c' ∈ (stopMonitoringPair s cfg).1.userConfigsWithIds) :
    c' ∈ s.userConfigsWithIds ∧
    ¬(c'.username = cfg.username ∧ c'.keyword = cfg.keyword) := by
  unfold stopMonitoringPair at h
  by_cases he : (s.activePairs.filter
      (fun k => k ≠ pairKey cfg.username cfg.keyword)).isEmpty
  · rw [if_pos he] at h
    simp at h
  · rw [if_neg he] at h
    simp only [List.mem_filter, decide_eq_true_eq] at h
    exact h

theorem stopMonitoringPair_baseline (s : MonState) (cfg : UserConfigWithId) :
    (stopMonitoringPair s cfg).1.lastProcessedTweetIds = s.lastProcessedTweetIds := by
  unfold stopMonitoringPair
  split <;> rfl

theorem optIntGt_ne_of_true (a b : String)
    (h : optIntGt (jsParseInt a) (jsParseInt b) = true) : a ≠ b := by
  intro heq
  rw [heq] at h
  rcases (optIntGt_eq_true_iff _ _).mp h with ⟨x, y, hx, hy, hlt⟩
  rw [hx] at hy
  cases hy
  exact lt_irrefl x hlt

theorem pairKey_inj_keyword (u k1 k2 : String) (h : pairKey u k1 = pairKey u k2) :
    k1 = k2 := by
  unfold pairKey at h
  have hd := congrArg String.data h
  simp only [String.data_append] at hd
  have hk := List.append_cancel_left hd
  exact congrArg String.mk hk

theorem stopMonitoringPair_no_exit (s : MonState) (cfg : UserConfigWithId)
    (k2 : String) (hk2 : k2 ∈ s.activePairs)
    (hne : k2 ≠ pairKey cfg.username cfg.keyword) :
    stopMonitoringPair s cfg =
      ({ s with
          activePairs :=
            s.activePairs.filter (fun k => k ≠ pairKey cfg.username cfg.keyword),
          userConfigsWithIds :=
            s.userConfigsWithIds.filter
              (fun u => ¬(u.username = cfg.username ∧ u.keyword = cfg.keyword)) },
       [.removeActivePair (pairKey cfg.username cfg.keyword)]) := by
  have hmem : k2 ∈ s.activePairs.filter
      (fun k => k ≠ pairKey cfg.username cfg.keyword) :=
    List.mem_filter.mpr ⟨hk2, by simp [hne]⟩
  have hemp : (s.activePairs.filter
      (fun k => k ≠ pairKey cfg.username cfg.keyword)).isEmpty = false := by
    rcases hl : s.activePairs.filter
        (fun k => k ≠ pairKey cfg.username cfg.keyword) with _ | ⟨a, l⟩
    · rw [hl] at hmem
      simp at hmem
    · rfl
  have hcond : ¬ ((s.activePairs.filter
      (fun k => k ≠ pairKey cfg.username cfg.keyword)).isEmpty = true) := by
    rw [hemp]
    simp
  unfold stopMonitoringPair
  rw [if_neg hcond]

/-- Exhaustive description of one visit: either nothing happens, or the
baseline advances without a match, or the baseline advances and the match
branch runs. -/
theorem checkForNewTweets_cases (solE : Bool) (bp : String) (s : MonState)
    (cfg : UserConfigWithId) (fetch : Except String (List Tweet))
    (penv : PurchaseEnv) (now : String) :
    checkForNewTweets solE bp s cfg fetch penv now = (s, []) ∨
    (∃ t ts b, fetch = .ok (t :: ts) ∧
      lookupAssoc s.lastProcessedTweetIds cfg.username = some b ∧ b ≠ "" ∧
      tweetIdOf t ≠ b ∧
      optIntGt (jsParseInt (tweetIdOf t)) (jsParseInt b) = true ∧
      ((hasKeyword cfg.keyword (tweetTextOf t) = false ∧
        checkForNewTweets solE bp s cfg fetch penv now =
          (advanceState s cfg.username (tweetIdOf t),
           [.advanceBaseline cfg.username (tweetIdOf t)])) ∨
       (hasKeyword cfg.keyword (tweetTextOf t) = true ∧
        checkForNewTweets solE bp s cfg fetch penv now =
          ((handleMatch solE bp (advanceState s cfg.username (tweetIdOf t)) cfg
              (matchRecord cfg t now) penv now).1,
           .advanceBaseline cfg.username (tweetIdOf t) ::
           (handleMatch solE bp (advanceState s cfg.username (tweetIdOf t)) cfg
              (matchRecord cfg t now) penv now).2)))) := by
  rcases fetch with e | tl
  · exact Or.inl rfl
  · rcases tl with _ | ⟨t, ts⟩
    · exact Or.inl rfl
    · rcases hb : lookupAssoc s.lastProcessedTweetIds cfg.username with _ | b
      · refine Or.inl ?_
        simp [checkForNewTweets, hb]
      · by_cases hbe : b = ""
        · refine Or.inl ?_
          simp [checkForNewTweets, hb, hbe]
        · by_cases heq : tweetIdOf t = b
          · refine Or.inl ?_
            simp [checkForNewTweets, hb, hbe, heq]
          · by_cases hgt : optIntGt (jsParseInt (tweetIdOf t)) (jsParseInt b) = true
            · refine Or.inr ⟨t, ts, b, rfl, rfl, hbe, heq, hgt, ?_⟩
              by_cases hkw : hasKeyword cfg.keyword (tweetTextOf t) = true
              · refine Or.inr ⟨hkw, ?_⟩
                simp [checkForNewTweets, hb, hbe, heq, hgt, hkw]
              · refine Or.inl ⟨by simpa using hkw, ?_⟩
                simp [checkForNewTweets, hb, hbe, heq, hgt, hkw]
            · refine Or.inl ?_
              simp [checkForNewTweets, hb, hbe, heq, hgt]

/-! ## C2: numeric baseline comparison and strict advancement -/

/-- C2: for a pair whose baseline is set, a visit compares the fetched
identifier to the baseline numerically, advances the baseline exactly when
the fetched identifier is strictly greater, and otherwise leaves the whole
state unchanged with no actions. -/
theorem numeric_baseline_comparison (solE : Bool) (bp : String) (s : MonState)
    (cfg : UserConfigWithId) (t : Tweet) (ts : List Tweet) (penv : PurchaseEnv)
    (now : String) (b : String)
    (hb : lookupAssoc s.lastProcessedTweetIds cfg.username = some b)
    (hbne : b ≠ "") :
    (optIntGt (jsParseInt (tweetIdOf t)) (jsParseInt b) = true →
      lookupAssoc (checkForNewTweets solE bp s cfg (.ok (t :: ts))
        penv now).1.lastProcessedTweetIds cfg.username = some (tweetIdOf t)) ∧
    (optIntGt (jsParseInt (tweetIdOf t)) (jsParseInt b) = false →
      checkForNewTweets solE bp s cfg (.ok (t :: ts)) penv now = (s, [])) := by
  constructor
  · intro hgt
    have hne := optIntGt_ne_of_true _ _ hgt
    by_cases hkw : hasKeyword cfg.keyword (tweetTextOf t) = true
    · have hstep : checkForNewTweets solE bp s cfg (.ok (t :: ts)) penv now =
        ((handleMatch solE bp (advanceState s cfg.username (tweetIdOf t)) cfg
            (matchRecord cfg t now) penv now).1,
         .advanceBaseline cfg.username (tweetIdOf t) ::
         (handleMatch solE bp (advanceState s cfg.username (tweetIdOf t)) cfg
            (matchRecord cfg t now) penv now).2) := by
        simp [checkForNewTweets, hb, hbne, hne, hgt, hkw]
      rw [hstep, handleMatch_state, stopMonitoringPair_baseline]
      simp [advanceState, lookupAssoc_setAssoc_self]
    · simp [checkForNewTweets, hb, hbne, hne, hgt, hkw, advanceState,
        lookupAssoc_setAssoc_self]
  · intro hgt
    by_cases heq : tweetIdOf t = b
    · simp [checkForNewTweets, hb, hbne, heq]
    · simp [checkForNewTweets, hb, hbne, heq, hgt]

/-- Witness for C2 at baseline "9" and fetched identifier "10": the
numeric comparison treats "10" as newer (lexicographically it is smaller),
and the baseline advances to "10". -/
theorem numeric_baseline_comparison_witness :
    lookupAssoc (checkForNewTweets false "" egStateNine egCfgAny
      (.ok [egTweet10]) egPenvFail "t0").1.lastProcessedTweetIds "alice" =
      some "10" :=
  (numeric_baseline_comparison false "" egStateNine egCfgAny egTweet10 []
    egPenvFail "t0" "9" (by decide) (by decide)).1 (by decide)

/-! ## C4: a match deactivates only the matching pair -/

/-- C4: when two active pairs share the same handle but have different
keywords and a new post matches the first pair's keyword, the visit of the
first pair removes only that pair: the second pair stays in the active set
and in the cycling array, the shared baseline is advanced to the new post
identifier, and the scheduler neither stops nor exits. -/
theorem keyword_isolation (solE : Bool) (bp : String) (s : MonState)
    (cfg1 cfg2 : UserConfigWithId) (t : Tweet) (ts : List Tweet)
    (penv : PurchaseEnv) (now : String) (b : String)
    (hkw12 : cfg1.keyword ≠ cfg2.keyword)
    (hu : cfg2.username = cfg1.username)
    (hmem2 : cfg2 ∈ s.userConfigsWithIds)
    (hap2 : pairKey cfg2.username cfg2.keyword ∈ s.activePairs)
    (hb : lookupAssoc s.lastProcessedTweetIds cfg1.username = some b)
    (hbne : b ≠ "")
    (hgt : optIntGt (jsParseInt (tweetIdOf t)) (jsParseInt b) = true)
    (hmatch : hasKeyword cfg1.keyword (tweetTextOf t) = true)
    (_hnomatch2 : hasKeyword cfg2.keyword (tweetTextOf t) = false) :
    pairKey cfg1.username cfg1.keyword ∉
      (checkForNewTweets solE bp s cfg1 (.ok (t :: ts)) penv now).1.activePairs ∧
    cfg2 ∈ (checkForNewTweets solE bp s cfg1 (.ok (t :: ts))
      penv now).1.userConfigsWithIds ∧
    pairKey cfg2.username cfg2.keyword ∈
      (checkForNewTweets solE bp s cfg1 (.ok (t :: ts)) penv now).1.activePairs ∧
    lookupAssoc (checkForNewTweets solE bp s cfg1 (.ok (t :: ts))
      penv now).1.lastProcessedTweetIds cfg2.username = some (tweetIdOf t) ∧
    (checkForNewTweets solE bp s cfg1 (.ok (t :: ts))
      penv now).1.isMonitoring = s.isMonitoring ∧
    (checkForNewTweets solE bp s cfg1 (.ok (t :: ts))
      penv now).1.exited = s.exited := by
  have hne := optIntGt_ne_of_true _ _ hgt
  have hkey : pairKey cfg2.username cfg2.keyword ≠
      pairKey cfg1.username cfg1.keyword := by
    rw [hu]
    intro h
    exact hkw12 (pairKey_inj_keyword _ _ _ h).symm
  have hstep : checkForNewTweets solE bp s cfg1 (.ok (t :: ts)) penv now =
      ((handleMatch solE bp (advanceState s cfg1.username (tweetIdOf t)) cfg1
          (matchRecord cfg1 t now) penv now).1,
       .advanceBaseline cfg1.username (tweetIdOf t) ::
       (handleMatch solE bp (advanceState s cfg1.username (tweetIdOf t)) cfg1
          (matchRecord cfg1 t now) penv now).2) := by
    simp [checkForNewTweets, hb, hbne, hne, hgt, hmatch]
  have hstop := stopMonitoringPair_no_exit
    (advanceState s cfg1.username (tweetIdOf t)) cfg1
    (pairKey cfg2.username cfg2.keyword)
    (by simpa [advanceState] using hap2) hkey
  rw [hstep, handleMatch_state, hstop]
  refine ⟨?_, ?_, ?_, ?_, ?_, ?_⟩
  · intro habs
    rcases List.mem_filter.mp habs with ⟨-, hdec⟩
    simp at hdec
  · refine List.mem_filter.mpr ⟨by simpa [advanceState] using hmem2, ?_⟩
    simp [hu]
    exact Ne.symm hkw12
  · exact List.mem_filter.mpr ⟨by simpa [advanceState] using hap2, by simp [hkey]⟩
  · simp [advanceState, hu, lookupAssoc_setAssoc_self]
  · simp [advanceState]
  · simp [advanceState]

/-- Witness for C4: pairs (alice, coin) and (alice, dog) are both active
with baseline "100"; post "101" "Coin launch now" matches only coin; after
the visit the coin pair is gone, the dog pair is still active, and the
shared baseline is "101". -/
theorem keyword_isolation_witness :
    pairKey egCfgCoin.username egCfgCoin.keyword ∉
      (checkForNewTweets true "bp" egStateTwo egCfgCoin (.ok [egTweet101])
        egPenvFail "t0").1.activePairs ∧
    egCfgDog ∈ (checkForNewTweets true "bp" egStateTwo egCfgCoin
      (.ok [egTweet101]) egPenvFail "t0").1.userConfigsWithIds ∧
    pairKey egCfgDog.username egCfgDog.keyword ∈
      (checkForNewTweets true "bp" egStateTwo egCfgCoin (.ok [egTweet101])
        egPenvFail "t0").1.activePairs ∧
    lookupAssoc (checkForNewTweets true "bp" egStateTwo egCfgCoin
      (.ok [egTweet101]) egPenvFail "t0").1.lastProcessedTweetIds
      egCfgDog.username = some (tweetIdOf egTweet101) ∧
    (checkForNewTweets true "bp" egStateTwo egCfgCoin (.ok [egTweet101])
      egPenvFail "t0").1.isMonitoring = egStateTwo.isMonitoring ∧
    (checkForNewTweets true "bp" egStateTwo egCfgCoin (.ok [egTweet101])
      egPenvFail "t0").1.exited = egStateTwo.exited :=
  keyword_isolation true "bp" egStateTwo egCfgCoin egCfgDog egTweet101 []
    egPenvFail "t0" "100" (by decide) (by decide) (by decide) (by decide)
    (by decide) (by decide) (by decide) (by decide) (by decide)

/-! ## C9: amount conversion floors, invalid amounts rejected early -/

/-- C9: conversion from fractional SOL to lamports floors and never rounds
up (the converted value is the greatest integer below the exact product),
a NaN or non-positive amount makes executeTokenPurchase fail before any
external call (its action list is empty), and for a valid and positive
amount the quote stage is called with exactly the floored lamport value. -/
theorem amount_conversion_floor :
    (∀ q : ℚ, ((solToLamports q : ℚ) ≤ q * 1000000000 ∧
      q * 1000000000 < (solToLamports q : ℚ) + 1)) ∧
    (∀ bp ca amt penv now,
      (amt = none ∨ ∃ q, amt = some q ∧ q ≤ 0) →
      executeTokenPurchase bp ca amt penv now = ⟨none, []⟩) ∧
    (∀ bp ca (q : ℚ) penv now n, penv.slot = .ok n → ¬ q ≤ 0 →
      ¬ solToLamports q ≤ 0 →
      ∃ rest, (executeTokenPurchase bp ca (some q) penv now).actions =
        .getSlot :: .quoteCall INPUT_MINT ca (solToLamports q) :: rest) := by
  refine ⟨?_, ?_, ?_⟩
  · intro q
    rw [solToLamports_eq_floor]
    exact ⟨Int.floor_le _, Int.lt_floor_add_one _⟩
  · intro bp ca amt penv now hbad
    rcases hbad with rfl | ⟨q, rfl, hq⟩
    · rfl
    · simp [executeTokenPurchase, hq]
  · intro bp ca q penv now n hslot hq hsol
    rcases hquote : penv.quote with e | oq
    · exact ⟨[], by simp [executeTokenPurchase, hslot, hq, hsol, hquote]⟩
    · rcases oq with _ | qt
      · exact ⟨[], by simp [executeTokenPurchase, hslot, hq, hsol, hquote]⟩
      · by_cases hoa : jsOrStr qt.outAmount "" = ""
        · exact ⟨[], by simp [executeTokenPurchase, hslot, hq, hsol, hquote, hoa]⟩
        · rcases hsi : penv.swapInstructions with e2 | instrs
          · exact ⟨[.swapInstructionsCall],
              by simp [executeTokenPurchase, hslot, hq, hsol, hquote, hoa, hsi]⟩
          · exact ⟨.swapInstructionsCall ::
              .lookupFetch instrs.addressLookupTableAddresses ::
              (sendTxTipped bp (swapIxsOf instrs)
                (resolveLookupTables penv.lookupTables
                  instrs.addressLookupTableAddresses)
                penv.blockhash penv.relay).2,
              by simp [executeTokenPurchase, hslot, hq, hsol, hquote, hoa, hsi]⟩

/-- Witness for C9 at amount 0.00015 SOL (the rational 3/20000): the
conversion yields exactly 150000 lamports, the quote stage receives that
value, and a NaN amount produces the empty run. -/
theorem amount_conversion_floor_witness :
    solToLamports (Rat.divInt 3 20000) = 150000 ∧
    ((solToLamports (Rat.divInt 3 20000) : ℚ) ≤ Rat.divInt 3 20000 * 1000000000 ∧
      Rat.divInt 3 20000 * 1000000000 <
        (solToLamports (Rat.divInt 3 20000) : ℚ) + 1) ∧
    executeTokenPurchase "bp" "CA1" none egPenvOk "t0" = ⟨none, []⟩ ∧
    (∃ rest, (executeTokenPurchase "bp" "CA1" (some (Rat.divInt 3 20000))
        egPenvOk "t0").actions =
      .getSlot :: .quoteCall INPUT_MINT "CA1" (solToLamports (Rat.divInt 3 20000)) ::
        rest) :=
  ⟨by decide,
   amount_conversion_floor.1 (Rat.divInt 3 20000),
   amount_conversion_floor.2.1 "bp" "CA1" none egPenvOk "t0" (Or.inl rfl),
   amount_conversion_floor.2.2 "bp" "CA1" (Rat.divInt 3 20000) egPenvOk "t0" 1
     (by decide) (by decide) (by decide)⟩

theorem executeTokenPurchase_quoteFails (bp ca : String) (amt : Option ℚ)
    (penv : PurchaseEnv) (now : String) (hqf : QuoteFails penv) :
    (executeTokenPurchase bp ca amt penv now).result = none ∧
    submitsOf (executeTokenPurchase bp ca amt penv now).actions = [] := by
  rcases amt with _ | q
  · exact ⟨rfl, rfl⟩
  · by_cases hq : q ≤ 0
    · constructor <;> simp [executeTokenPurchase, hq, submitsOf]
    · rcases hslot : penv.slot with e | n
      · constructor <;> simp [executeTokenPurchase, hq, hslot, submitsOf]
      · by_cases hamt : solToLamports q ≤ 0
        · constructor <;> simp [executeTokenPurchase, hq, hslot, hamt, submitsOf]
        · rcases hqf with ⟨e, hq2⟩ | hq2 | ⟨qt, hq2, hoa⟩
          · constructor <;>
              simp [executeTokenPurchase, hq, hslot, hamt, hq2, submitsOf]
          · constructor <;>
              simp [executeTokenPurchase, hq, hslot, hamt, hq2, submitsOf]
          · constructor <;>
              simp [executeTokenPurchase, hq, hslot, hamt, hq2, hoa, submitsOf]

theorem savedResultsOf_append (a b : List VisitAction) :
    savedResultsOf (a ++ b) = savedResultsOf a ++ savedResultsOf b :=
  List.filterMap_append a b _

theorem savedResultsOf_pipeline_map (pas : List PipeAction) :
    savedResultsOf (pas.map VisitAction.pipeline) = [] := by
  induction pas with
  | nil => rfl
  | cons a l ih => simp [savedResultsOf, List.filterMap_cons] at ih ⊢

theorem savedResultsOf_stop (s : MonState) (cfg : UserConfigWithId) :
    savedResultsOf (stopMonitoringPair s cfg).2 = [] := by
  unfold stopMonitoringPair
  split <;> rfl

theorem pipeSubmitsOf_append (a b : List VisitAction) :
    pipeSubmitsOf (a ++ b) = pipeSubmitsOf a ++ pipeSubmitsOf b :=
  List.filterMap_append a b _

theorem pipeSubmitsOf_pipeline_map (pas : List PipeAction) :
    pipeSubmitsOf (pas.map VisitAction.pipeline) = submitsOf pas := by
  induction pas with
  | nil => rfl
  | cons a l ih =>
    cases a <;> simp [pipeSubmitsOf, submitsOf, List.filterMap_cons] at ih ⊢ <;>
      exact ih

theorem pipeSubmitsOf_stop (s : MonState) (cfg : UserConfigWithId) :
    pipeSubmitsOf (stopMonitoringPair s cfg).2 = [] := by
  unfold stopMonitoringPair
  split <;> rfl

theorem purchaseActions_fail (bp : String) (cfg : UserConfigWithId)
    (r0 : TweetResult) (penv : PurchaseEnv) (now : String) (ca : String)
    (hCA : cfg.tokenCA = some ca)
    (hfail : (executeTokenPurchase bp ca cfg.buyAmount penv now).result = none) :
    purchaseActions true bp cfg r0 penv now =
      [VisitAction.invokePipeline ca cfg.buyAmount] ++
      (executeTokenPurchase bp ca cfg.buyAmount penv now).actions.map
        VisitAction.pipeline ++
      [VisitAction.saveResult (failedRecord r0)] := by
  simp only [purchaseActions, hCA, hfail]

theorem savedResultsOf_handleMatch_fail (bp : String) (s1 : MonState)
    (cfg : UserConfigWithId) (r0 : TweetResult) (penv : PurchaseEnv)
    (now : String) (ca : String) (hCA : cfg.tokenCA = some ca)
    (hfail : (executeTokenPurchase bp ca cfg.buyAmount penv now).result = none) :
    savedResultsOf (handleMatch true bp s1 cfg r0 penv now).2 =
      [r0, failedRecord r0] := by
  unfold handleMatch
  rw [purchaseActions_fail bp cfg r0 penv now ca hCA hfail]
  simp only [savedResultsOf_append]
  rw [savedResultsOf_pipeline_map, savedResultsOf_stop]
  rfl

theorem pipeSubmitsOf_purchaseActions (bp : String) (cfg : UserConfigWithId)
    (r0 : TweetResult) (penv : PurchaseEnv) (now : String) (ca : String)
    (hCA : cfg.tokenCA = some ca) :
    pipeSubmitsOf (purchaseActions true bp cfg r0 penv now) =
      submitsOf (executeTokenPurchase bp ca cfg.buyAmount penv now).actions := by
  unfold purchaseActions
  rcases hr : (executeTokenPurchase bp ca cfg.buyAmount penv now).result with _ | pr
  · simp only [hCA, hr]
    simp only [pipeSubmitsOf_append, pipeSubmitsOf_pipeline_map]
    simp [pipeSubmitsOf]
  · simp only [hCA, hr]
    split <;>
      · simp only [pipeSubmitsOf_append, pipeSubmitsOf_pipeline_map]
        simp [pipeSubmitsOf]

theorem pipeSubmitsOf_handleMatch (bp : String) (s1 : MonState)
    (cfg : UserConfigWithId) (r0 : TweetResult) (penv : PurchaseEnv)
    (now : String) (ca : String) (hCA : cfg.tokenCA = some ca) :
    pipeSubmitsOf (handleMatch true bp s1 cfg r0 penv now).2 =
      submitsOf (executeTokenPurchase bp ca cfg.buyAmount penv now).actions := by
  unfold handleMatch
  rw [pipeSubmitsOf_append, pipeSubmitsOf_append,
    pipeSubmitsOf_purchaseActions bp cfg r0 penv now ca hCA, pipeSubmitsOf_stop]
  simp [pipeSubmitsOf]

/-- C5: executeTokenPurchase returns a tagged result for every input (the
embedding is total, mirroring the try/catch of the source); when the quote
stage fails the pipeline returns the failure value with no relay
submission, and a visit whose purchase fails this way still persists the
MatchEvent twice — the detection record and then the update carrying
purchaseExecuted = false — with no relay submission anywhere. -/
theorem quote_failure_no_submit_and_persisted :
    (∀ bp ca amt penv now, QuoteFails penv →
      (executeTokenPurchase bp ca amt penv now).result = none ∧
      submitsOf (executeTokenPurchase bp ca amt penv now).actions = []) ∧
    (∀ bp s cfg t ts penv now b ca,
      lookupAssoc s.lastProcessedTweetIds cfg.username = some b → b ≠ "" →
      optIntGt (jsParseInt (tweetIdOf t)) (jsParseInt b) = true →
      hasKeyword cfg.keyword (tweetTextOf t) = true →
      cfg.tokenCA = some ca → QuoteFails penv →
      matchEventsOf (checkForNewTweets true bp s cfg (.ok (t :: ts))
        penv now).2 = [matchRecord cfg t now] ∧
      savedResultsOf (checkForNewTweets true bp s cfg (.ok (t :: ts))
        penv now).2 =
        [matchRecord cfg t now, failedRecord (matchRecord cfg t now)] ∧
      pipeSubmitsOf (checkForNewTweets true bp s cfg (.ok (t :: ts))
        penv now).2 = []) := by
  constructor
  · exact fun bp ca amt penv now h => executeTokenPurchase_quoteFails bp ca amt penv now h
  · intro bp s cfg t ts penv now b ca hb hbne hgt hkw hCA hqf
    have hne := optIntGt_ne_of_true _ _ hgt
    have hstep : checkForNewTweets true bp s cfg (.ok (t :: ts)) penv now =
        ((handleMatch true bp (advanceState s cfg.username (tweetIdOf t)) cfg
            (matchRecord cfg t now) penv now).1,
         .advanceBaseline cfg.username (tweetIdOf t) ::
         (handleMatch true bp (advanceState s cfg.username (tweetIdOf t)) cfg
            (matchRecord cfg t now) penv now).2) := by
      simp [checkForNewTweets, hb, hbne, hne, hgt, hkw]
    have hfail :=
      (executeTokenPurchase_quoteFails bp ca cfg.buyAmount penv now hqf).1
    rw [hstep]
    refine ⟨?_, ?_, ?_⟩
    · show matchEventsOf (handleMatch true bp
        (advanceState s cfg.username (tweetIdOf t)) cfg (matchRecord cfg t now)
        penv now).2 = [matchRecord cfg t now]
      exact handleMatch_events true bp _ cfg (matchRecord cfg t now) penv now
    · show savedResultsOf (handleMatch true bp
        (advanceState s cfg.username (tweetIdOf t)) cfg (matchRecord cfg t now)
        penv now).2 = _
      exact savedResultsOf_handleMatch_fail bp _ cfg (matchRecord cfg t now)
        penv now ca hCA hfail
    · show pipeSubmitsOf (handleMatch true bp
        (advanceState s cfg.username (tweetIdOf t)) cfg (matchRecord cfg t now)
        penv now).2 = []
      rw [pipeSubmitsOf_handleMatch bp _ cfg (matchRecord cfg t now) penv now ca hCA]
      exact (executeTokenPurchase_quoteFails bp ca cfg.buyAmount penv now hqf).2

/-- Witness for C5: a quote failure (simulated HTTP 500) during the visit
of the (alice, coin) pair produces the MatchEvent, persists it with
purchaseExecuted = false, and performs no relay submission. -/
theorem quote_failure_no_submit_and_persisted_witness :
    matchEventsOf (checkForNewTweets true "bp" egStateTwo egCfgCoin
      (.ok [egTweet101]) egPenvQuote500 "t0").2 =
      [matchRecord egCfgCoin egTweet101 "t0"] ∧
    savedResultsOf (checkForNewTweets true "bp" egStateTwo egCfgCoin
      (.ok [egTweet101]) egPenvQuote500 "t0").2 =
      [matchRecord egCfgCoin egTweet101 "t0",
       failedRecord (matchRecord egCfgCoin egTweet101 "t0")] ∧
    pipeSubmitsOf (checkForNewTweets true "bp" egStateTwo egCfgCoin
      (.ok [egTweet101]) egPenvQuote500 "t0").2 = [] :=
  quote_failure_no_submit_and_persisted.2 "bp" egStateTwo egCfgCoin egTweet101
    [] egPenvQuote500 "t0" "100" "CA1" (by decide) (by decide) (by decide)
    (by decide) (by decide) (Or.inl ⟨"Jupiter API failed: 500 Internal Server Error", rfl⟩)

/-- C6 counterexample: the claim says any error field in the relay
response yields a pipeline failure; but the code only tests the result
field, so a body carrying result "tx123" together with an error field is
treated as a success. -/
theorem relay_error_field_ignored_counterexample :
    egPenvBothFields.relay = .ok ⟨some "tx123", some "relay reported error"⟩ ∧
    (executeTokenPurchase "bp" "CA1" (some (Rat.divInt 3 20000))
      egPenvBothFields "t0").result =
      some ⟨"CA1", Rat.divInt 3 20000, "t0", "tx123"⟩ := by
  constructor
  · rfl
  · decide

/-- C6 (amended): once the earlier stages succeed, the pipeline's outcome
is decided solely by the result field of the relay body, regardless of the
transport-level HTTP status being 200 and regardless of the error field: a
non-empty result is returned as the transaction identifier, and a
missing or empty result (in particular a pure error body) is a failure. -/
theorem relay_result_discriminates (bp ca : String) (q : ℚ) (penv : PurchaseEnv)
    (now : String) (n : Nat) (qt : JupiterQuote) (instrs : SwapInstructionsResp)
    (bh : String) (body : AstralaneResponse)
    (hq : ¬ q ≤ 0) (hsol : ¬ solToLamports q ≤ 0)
    (hslot : penv.slot = .ok n) (hquote : penv.quote = .ok (some qt))
    (hoa : jsOrStr qt.outAmount "" ≠ "")
    (hsi : penv.swapInstructions = .ok instrs)
    (hbh : penv.blockhash = .ok bh) (hrelay : penv.relay = .ok body) :
    (executeTokenPurchase bp ca (some q) penv now).result =
      (if jsOrStr body.result "" = "" then none
       else some ⟨ca, q, now, jsOrStr body.result ""⟩) := by
  simp [executeTokenPurchase, hq, hsol, hslot, hquote, hoa, hsi, hbh, hrelay,
    sendTxTipped, purchaseOutcome]

/-- Witness for C6: an error-only body delivered with transport success
(HTTP 200) yields a pipeline failure. -/
theorem relay_result_discriminates_witness :
    (executeTokenPurchase "bp" "CA1" (some (Rat.divInt 3 20000))
      egPenvErrorBody "t0").result = none := by
  have h := relay_result_discriminates "bp" "CA1" (Rat.divInt 3 20000)
    egPenvErrorBody "t0" 1 ⟨some "42"⟩ egInstrs "bh"
    ⟨none, some "sendTransaction failed"⟩
    (by decide) (by decide) rfl rfl (by decide) rfl rfl rfl
  rw [h]
  decide

/-! ## C10: transaction build order and the tip -/

/-- C10: whenever the pipeline reaches the build stage, the submitted
transaction's instruction list is exactly compute-budget, setup, swap,
cleanup followed by the tip; the tip is the last instruction and is a
transfer of the fixed MIN_TIP_AMOUNT (100000 lamports) to the well-known
relay-incentive address. -/
theorem transaction_build_order (bp ca : String) (q : ℚ) (penv : PurchaseEnv)
    (now : String) (n : Nat) (qt : JupiterQuote) (instrs : SwapInstructionsResp)
    (bh : String)
    (hq : ¬ q ≤ 0) (hsol : ¬ solToLamports q ≤ 0)
    (hslot : penv.slot = .ok n) (hquote : penv.quote = .ok (some qt))
    (hoa : jsOrStr qt.outAmount "" ≠ "")
    (hsi : penv.swapInstructions = .ok instrs)
    (hbh : penv.blockhash = .ok bh) :
    submitsOf (executeTokenPurchase bp ca (some q) penv now).actions =
      [instrs.computeBudgetInstructions.map deserializeInstruction ++
       instrs.setupInstructions.map deserializeInstruction ++
       [deserializeInstruction instrs.swapInstruction,
        deserializeInstruction instrs.cleanupInstruction] ++
       [tipInstruction bp]] ∧
    (instrs.computeBudgetInstructions.map deserializeInstruction ++
     instrs.setupInstructions.map deserializeInstruction ++
     [deserializeInstruction instrs.swapInstruction,
      deserializeInstruction instrs.cleanupInstruction] ++
     [tipInstruction bp]).getLast? = some (tipInstruction bp) ∧
    tipInstruction bp = .transfer bp TIP_ACCOUNT MIN_TIP_AMOUNT ∧
    MIN_TIP_AMOUNT = 100000 ∧
    TIP_ACCOUNT = "astra4uejePWneqNaJKuFFA8oonqCE1sqF6b45kDMZm" := by
  refine ⟨?_, ?_, rfl, rfl, rfl⟩
  · rcases hrelay : penv.relay with e | body <;>
      simp [executeTokenPurchase, hq, hsol, hslot, hquote, hoa, hsi, hbh, hrelay,
        sendTxTipped, submitsOf, swapIxsOf, List.filterMap_cons]
  · exact List.getLast?_concat _

/-- Witness for C10 in the all-success environment: the submitted
instruction list and the tip at its end, concretely. -/
theorem transaction_build_order_witness :
    submitsOf (executeTokenPurchase "bp" "CA1" (some (Rat.divInt 3 20000))
      egPenvOk "t0").actions =
      [egInstrs.computeBudgetInstructions.map deserializeInstruction ++
       egInstrs.setupInstructions.map deserializeInstruction ++
       [deserializeInstruction egInstrs.swapInstruction,
        deserializeInstruction egInstrs.cleanupInstruction] ++
       [tipInstruction "bp"]] ∧
    (egInstrs.computeBudgetInstructions.map deserializeInstruction ++
     egInstrs.setupInstructions.map deserializeInstruction ++
     [deserializeInstruction egInstrs.swapInstruction,
      deserializeInstruction egInstrs.cleanupInstruction] ++
     [tipInstruction "bp"]).getLast? = some (tipInstruction "bp") ∧
    tipInstruction "bp" = .transfer "bp" TIP_ACCOUNT MIN_TIP_AMOUNT ∧
    MIN_TIP_AMOUNT = 100000 ∧
    TIP_ACCOUNT = "astra4uejePWneqNaJKuFFA8oonqCE1sqF6b45kDMZm" :=
  transaction_build_order "bp" "CA1" (Rat.divInt 3 20000) egPenvOk "t0" 1
    ⟨some "42"⟩ egInstrs "bh" (by decide) (by decide) rfl rfl (by decide)
    rfl rfl

/-- C7: the claim says no error crashes the scheduler; but when every
configured pair fails identifier resolution, cycling starts with an empty
userConfigsWithIds array and the very first tick dereferences
userConfigsWithIds[currentUserIndex].username before the emptiness guard,
throwing a TypeError that crashes the process. -/
theorem scheduler_tick_crash_on_empty :
    (initializeAllUsers egFailedInit).userConfigsWithIds = [] ∧
    (initializeAllUsers egFailedInit).isMonitoring = true ∧
    (initializeAllUsers egFailedInit).exited = false ∧
    cyclingTick false "" (initializeAllUsers egFailedInit)
      ⟨.ok [], egPenvFail, "t0"⟩ =
      .error "TypeError: cannot read properties of undefined (reading username)" := by
  refine ⟨rfl, rfl, rfl, rfl⟩

/-- C1 counterexample: in the visit that matches post "101" for the
(alice, coin) pair with trading enabled, both a pipeline invocation and a
pair removal occur, but the removal does NOT precede the invocation — the
pair is removed from the active set only after the Trade Execution
Pipeline call returns. -/
theorem removal_after_pipeline_counterexample :
    ((checkForNewTweets true "bp" egStateOne egCfgCoin (.ok [egTweet101])
        egPenvOk "t0").2.findIdx? isInvokePipeline).isSome = true ∧
    ((checkForNewTweets true "bp" egStateOne egCfgCoin (.ok [egTweet101])
        egPenvOk "t0").2.findIdx? isRemoveActivePair).isSome = true ∧
    removalPrecedesInvocation
      (checkForNewTweets true "bp" egStateOne egCfgCoin (.ok [egTweet101])
        egPenvOk "t0").2 = false ∧
    matchEventsOf (checkForNewTweets true "bp" egStateOne egCfgCoin
      (.ok [egTweet101]) egPenvOk "t0").2 ≠ [] := by
  decide

theorem matchEventsFor_append (u k : String) (a b : List VisitAction) :
    matchEventsFor u k (a ++ b) = matchEventsFor u k a ++ matchEventsFor u k b := by
  unfold matchEventsFor
  rw [matchEventsOf_append, List.filter_append]

theorem visit_events_cases (solE : Bool) (bp : String) (s : MonState)
    (cfg : UserConfigWithId) (fetch : Except String (List Tweet))
    (penv : PurchaseEnv) (now : String) :
    matchEventsOf (checkForNewTweets solE bp s cfg fetch penv now).2 = [] ∨
    (∃ t, matchEventsOf (checkForNewTweets solE bp s cfg fetch penv now).2 =
        [matchRecord cfg t now] ∧
      ∀ c' ∈ (checkForNewTweets solE bp s cfg fetch penv now).1.userConfigsWithIds,
        ¬(c'.username = cfg.username ∧ c'.keyword = cfg.keyword)) := by
  rcases checkForNewTweets_cases solE bp s cfg fetch penv now with
    heq | ⟨t, ts, b, hf, hb, hbne, hne, hgt, ⟨hkw, heq⟩ | ⟨hkw, heq⟩⟩
  · left
    rw [heq]
    rfl
  · left
    rw [heq]
    rfl
  · right
    refine ⟨t, ?_, ?_⟩
    · rw [heq]
      show matchEventsOf (handleMatch solE bp
        (advanceState s cfg.username (tweetIdOf t)) cfg (matchRecord cfg t now)
        penv now).2 = [matchRecord cfg t now]
      exact handleMatch_events solE bp _ cfg _ penv now
    · rw [heq]
      intro c' hc'
      rw [handleMatch_state] at hc'
      exact (stopMonitoringPair_configs_mem _ cfg c' hc').2

theorem visit_configs_subset (solE : Bool) (bp : String) (s : MonState)
    (cfg : UserConfigWithId) (fetch : Except String (List Tweet))
    (penv : PurchaseEnv) (now : String) (c' : UserConfigWithId)
    (h : c' ∈ (checkForNewTweets solE bp s cfg fetch penv now).1.userConfigsWithIds) :
    c' ∈ s.userConfigsWithIds := by
  rcases checkForNewTweets_cases solE bp s cfg fetch penv now with
    heq | ⟨t, ts, b, hf, hb, hbne, hne, hgt, ⟨hkw, heq⟩ | ⟨hkw, heq⟩⟩
  · rw [heq] at h
    exact h
  · rw [heq] at h
    exact h
  · rw [heq, handleMatch_state] at h
    exact ((stopMonitoringPair_configs_mem _ cfg c' h).1 : c' ∈ _)

theorem cyclingTick_events (solE : Bool) (bp : String) (s : MonState)
    (inp : TickInput) (s' : MonState) (as : List VisitAction) (u k : String)
    (h : cyclingTick solE bp s inp = .ok (s', as)) :
    (¬ PairLive s u k → matchEventsFor u k as = [] ∧ ¬ PairLive s' u k) ∧
    (matchEventsFor u k as ≠ [] →
      (matchEventsFor u k as).length = 1 ∧ ¬ PairLive s' u k) := by
  by_cases hex : s.exited
  · rw [cyclingTick, if_pos hex] at h
    injection h with h1
    injection h1 with hs ha
    subst hs
    subst ha
    constructor
    · intro hdead
      exact ⟨rfl, hdead⟩
    · intro hne
      exact absurd rfl hne
  · rw [cyclingTick, if_neg hex] at h
    rcases hcfg : s.userConfigsWithIds[s.currentUserIndex]? with _ | currentConfig
    · simp only [hcfg] at h
      exact Except.noConfusion h
    · simp only [hcfg] at h
      have hmem : currentConfig ∈ s.userConfigsWithIds :=
        List.getElem?_mem hcfg
      have hconfigs :
          s'.userConfigsWithIds =
            (checkForNewTweets solE bp s currentConfig inp.fetch inp.penv
              inp.now).1.userConfigsWithIds ∧
          as = (checkForNewTweets solE bp s currentConfig inp.fetch inp.penv
              inp.now).2 := by
        by_cases hex2 : (checkForNewTweets solE bp s currentConfig inp.fetch
            inp.penv inp.now).1.exited
        · rw [if_pos hex2] at h
          injection h with h1
          exact ⟨by rw [h1], by rw [h1]⟩
        · rw [if_neg hex2] at h
          injection h with h1
          injection h1 with hs ha
          subst hs
          subst ha
          exact ⟨rfl, rfl⟩
      rcases hconfigs with ⟨hsc, has⟩
      have hsub : ∀ c' ∈ s'.userConfigsWithIds, c' ∈ s.userConfigsWithIds := by
        intro c' hc'
        rw [hsc] at hc'
        exact visit_configs_subset solE bp s currentConfig inp.fetch inp.penv
          inp.now c' hc'
      rcases visit_events_cases solE bp s currentConfig inp.fetch inp.penv
          inp.now with hev | ⟨t, hev, hgone⟩
      · have hforall : matchEventsFor u k as = [] := by
          unfold matchEventsFor
          rw [has, hev]
          rfl
        constructor
        · intro hdead
          refine ⟨hforall, ?_⟩
          intro ⟨c', hc', hck⟩
          exact hdead ⟨c', hsub c' hc', hck⟩
        · intro hne
          exact absurd hforall hne
      · by_cases hpair : currentConfig.username = u ∧ currentConfig.keyword = k
        · constructor
          · intro hdead
            exact absurd ⟨currentConfig, hmem, hpair⟩ hdead
          · intro _
            constructor
            · unfold matchEventsFor
              rw [has, hev]
              simp [matchRecord, hpair.1, hpair.2]
            · intro ⟨c', hc', hck⟩
              rw [hsc] at hc'
              exact hgone c' hc'
                ⟨hck.1.trans hpair.1.symm, hck.2.trans hpair.2.symm⟩
        · have hflt : matchEventsFor u k as = [] := by
            unfold matchEventsFor
            rw [has, hev]
            simp only [List.filter, matchRecord]
            rw [decide_eq_false (fun hh => hpair ⟨hh.1, hh.2⟩)]
          constructor
          · intro hdead
            refine ⟨hflt, ?_⟩
            intro ⟨c', hc', hck⟩
            exact hdead ⟨c', hsub c' hc', hck⟩
          · intro hne
            exact absurd hflt hne

theorem runTrace_events_dead (solE : Bool) (bp : String) (u k : String) :
    ∀ (ins : List TickInput) (s : MonState), ¬ PairLive s u k →
      matchEventsFor u k (runTrace solE bp s ins).2 = [] := by
  intro ins
  induction ins with
  | nil =>
    intro s _
    rfl
  | cons i is ih =>
    intro s hdead
    rcases htick : cyclingTick solE bp s i with e | ⟨s1, as⟩
    · simp [runTrace, htick]
      rfl
    · have hev := cyclingTick_events solE bp s i s1 as u k htick
      have h1 := hev.1 hdead
      simp only [runTrace, htick]
      rw [matchEventsFor_append, h1.1, ih s1 h1.2]
      rfl

/-- C1 (amended): across any sequence of scheduler ticks from any state,
at most one MatchEvent is ever produced for a given (username, keyword)
pair — the baseline advances before evaluation and the matching visit
removes the pair from the cycling array in the same visit; but the
removal happens after the Trade Execution Pipeline invocation returns,
not before it (see the counterexample). -/
theorem at_most_one_match_event (solE : Bool) (bp : String) (u k : String)
    (ins : List TickInput) (s : MonState) :
    (matchEventsFor u k (runTrace solE bp s ins).2).length ≤ 1 := by
  induction ins generalizing s with
  | nil => simp [runTrace, matchEventsFor, matchEventsOf]
  | cons i is ih =>
    rcases htick : cyclingTick solE bp s i with e | ⟨s1, as⟩
    · simp [runTrace, htick, matchEventsFor, matchEventsOf]
    · simp only [runTrace, htick]
      rw [matchEventsFor_append, List.length_append]
      by_cases has : matchEventsFor u k as = []
      · rw [has]
        simpa using ih s1
      · have hev := (cyclingTick_events solE bp s i s1 as u k htick).2 has
        rw [hev.1, runTrace_events_dead solE bp u k is s1 hev.2]
        simp

/-- C3 counterexample: the claim says that while the baseline is missing
the first observed post sets the baseline; but a cycling visit with a
missing baseline changes nothing — the observed (matching) post neither
sets the baseline nor triggers a match. -/
theorem missing_baseline_unset_counterexample :
    lookupAssoc egStateNoBaseline.lastProcessedTweetIds "alice" = none ∧
    (checkForNewTweets true "bp" egStateNoBaseline egCfgCoin
      (.ok [egTweet101]) egPenvOk "t0").1 = egStateNoBaseline ∧
    lookupAssoc (checkForNewTweets true "bp" egStateNoBaseline egCfgCoin
      (.ok [egTweet101]) egPenvOk "t0").1.lastProcessedTweetIds "alice" = none ∧
    matchEventsOf (checkForNewTweets true "bp" egStateNoBaseline egCfgCoin
      (.ok [egTweet101]) egPenvOk "t0").2 = [] := by
  decide

theorem optIntGt_none_left (x : Option Int) : optIntGt none x = false := by
  cases x <;> rfl

/-- The fetched identifier of a strictly-newer comparison is never the
empty string (parseInt of the empty string is NaN). -/
theorem tweetId_ne_empty_of_gt (t b0 : String)
    (hgt : optIntGt (jsParseInt t) (jsParseInt b0) = true) : t ≠ "" := by
  intro hh
  rw [hh] at hgt
  rw [show jsParseInt "" = none from rfl, optIntGt_none_left] at hgt
  cases hgt

theorem BaselineReach_step (b b' t : String) (hr : BaselineReach b b')
    (hgt : optIntGt (jsParseInt t) (jsParseInt b') = true) :
    BaselineReach b t ∧ t ≠ b := by
  rcases (optIntGt_eq_true_iff _ _).mp hgt with ⟨x, y, hx, hy, hlt⟩
  rcases hr with rfl | ⟨n, m, hbn, hbm, hnm⟩
  · constructor
    · exact Or.inr ⟨y, x, hy, hx, hlt⟩
    · intro heq
      rw [heq] at hx
      injection hy.symm.trans hx with hyx
      omega
  · injection hbm.symm.trans hy with hmy
    constructor
    · exact Or.inr ⟨n, x, hbn, hx, by omega⟩
    · intro heq
      rw [heq] at hx
      injection hbn.symm.trans hx with hnx
      omega

theorem advance_baseline_inv (s : MonState) (cfg : UserConfigWithId)
    (t : Tweet) (b0 u b : String) (hinv : BaselineInv u b s)
    (hb0 : lookupAssoc s.lastProcessedTweetIds cfg.username = some b0)
    (hgt : optIntGt (jsParseInt (tweetIdOf t)) (jsParseInt b0) = true) :
    BaselineInv u b (advanceState s cfg.username (tweetIdOf t)) ∧
    (cfg.username = u → tweetIdOf t ≠ b) := by
  rcases hinv with ⟨b', hb', hb'ne, hreach⟩
  by_cases hu : cfg.username = u
  · have hbb : b0 = b' := by
      rw [hu] at hb0
      injection hb0.symm.trans hb' with hh
    subst hbb
    have hstep := BaselineReach_step b b0 (tweetIdOf t) hreach hgt
    constructor
    · refine ⟨tweetIdOf t, ?_, tweetId_ne_empty_of_gt _ _ hgt, hstep.1⟩
      show lookupAssoc (setAssoc s.lastProcessedTweetIds cfg.username
        (tweetIdOf t)) u = some (tweetIdOf t)
      rw [hu]
      exact lookupAssoc_setAssoc_self _ _ _
    · intro _
      exact hstep.2
  · constructor
    · refine ⟨b', ?_, hb'ne, hreach⟩
      show lookupAssoc (setAssoc s.lastProcessedTweetIds cfg.username
        (tweetIdOf t)) u = some b'
      rw [lookupAssoc_setAssoc_ne _ _ _ _ (fun hh => hu hh.symm)]
      exact hb'
    · intro hh
      exact absurd hh hu

theorem visit_baseline_inv (solE : Bool) (bp : String) (s : MonState)
    (cfg : UserConfigWithId) (fetch : Except String (List Tweet))
    (penv : PurchaseEnv) (now : String) (u b : String)
    (hinv : BaselineInv u b s) :
    BaselineInv u b (checkForNewTweets solE bp s cfg fetch penv now).1 ∧
    ∀ r ∈ matchEventsOf (checkForNewTweets solE bp s cfg fetch penv now).2,
      r.username = u → r.tweetId ≠ b := by
  rcases checkForNewTweets_cases solE bp s cfg fetch penv now with
    heq | ⟨t, ts, b0, hf, hb0, hb0ne, hne, hgt, ⟨hkw, heq⟩ | ⟨hkw, heq⟩⟩
  · rw [heq]
    refine ⟨hinv, ?_⟩
    intro r hr
    cases hr
  · rw [heq]
    refine ⟨(advance_baseline_inv s cfg t b0 u b hinv hb0 hgt).1, ?_⟩
    intro r hr
    cases hr
  · rw [heq]
    have hadv := advance_baseline_inv s cfg t b0 u b hinv hb0 hgt
    constructor
    · show BaselineInv u b (handleMatch solE bp
        (advanceState s cfg.username (tweetIdOf t)) cfg (matchRecord cfg t now)
        penv now).1
      rw [handleMatch_state]
      unfold BaselineInv
      rw [stopMonitoringPair_baseline]
      exact hadv.1
    · intro r hr hru
      have hr1 : r ∈ matchEventsOf (handleMatch solE bp
          (advanceState s cfg.username (tweetIdOf t)) cfg (matchRecord cfg t now)
          penv now).2 := hr
      rw [handleMatch_events] at hr1
      rcases List.mem_singleton.mp hr1 with rfl
      exact hadv.2 hru

theorem cyclingTick_baseline_inv (solE : Bool) (bp : String) (s : MonState)
    (inp : TickInput) (s' : MonState) (as : List VisitAction) (u b : String)
    (h : cyclingTick solE bp s inp = .ok (s', as))
    (hinv : BaselineInv u b s) :
    BaselineInv u b s' ∧
    ∀ r ∈ matchEventsOf as, r.username = u → r.tweetId ≠ b := by
  by_cases hex : s.exited
  · rw [cyclingTick, if_pos hex] at h
    injection h with h1
    injection h1 with hs ha
    subst hs
    subst ha
    refine ⟨hinv, ?_⟩
    intro r hr
    cases hr
  · rw [cyclingTick, if_neg hex] at h
    rcases hcfg : s.userConfigsWithIds[s.currentUserIndex]? with _ | currentConfig
    · simp only [hcfg] at h
      exact Except.noConfusion h
    · simp only [hcfg] at h
      have hfield :
          s'.lastProcessedTweetIds =
            (checkForNewTweets solE bp s currentConfig inp.fetch inp.penv
              inp.now).1.lastProcessedTweetIds ∧
          as = (checkForNewTweets solE bp s currentConfig inp.fetch inp.penv
              inp.now).2 := by
        by_cases hex2 : (checkForNewTweets solE bp s currentConfig inp.fetch
            inp.penv inp.now).1.exited
        · rw [if_pos hex2] at h
          injection h with h1
          exact ⟨by rw [h1], by rw [h1]⟩
        · rw [if_neg hex2] at h
          injection h with h1
          injection h1 with hs ha
          subst hs
          subst ha
          exact ⟨rfl, rfl⟩
      rcases hfield with ⟨hsf, has⟩
      have hv := visit_baseline_inv solE bp s currentConfig inp.fetch inp.penv
        inp.now u b hinv
      constructor
      · unfold BaselineInv
        rw [hsf]
        exact hv.1
      · rw [has]
        exact hv.2

theorem runTrace_baseline_inv (solE : Bool) (bp : String) (u b : String) :
    ∀ (ins : List TickInput) (s : MonState), BaselineInv u b s →
      BaselineInv u b (runTrace solE bp s ins).1 ∧
      ∀ r ∈ matchEventsOf (runTrace solE bp s ins).2,
        r.username = u → r.tweetId ≠ b := by
  intro ins
  induction ins with
  | nil =>
    intro s hinv
    refine ⟨hinv, ?_⟩
    intro r hr
    cases hr
  | cons i is ih =>
    intro s hinv
    rcases htick : cyclingTick solE bp s i with e | ⟨s1, as⟩
    · simp only [runTrace, htick]
      refine ⟨hinv, ?_⟩
      intro r hr
      cases hr
    · simp only [runTrace, htick]
      have hstep := cyclingTick_baseline_inv solE bp s i s1 as u b htick hinv
      have hrest := ih s1 hstep.1
      refine ⟨hrest.1, ?_⟩
      intro r hr hru
      rw [matchEventsOf_append] at hr
      rcases List.mem_append.mp hr with hr1 | hr1
      · exact hstep.2 r hr1 hru
      · exact hrest.2 r hr1 hru

/-- C3 (amended): the baseline is recorded only by initialization — the
first post fetched there becomes the baseline and produces no MatchEvent;
a cycling visit with a missing or empty baseline leaves the entire state
unchanged (in particular it does not set the baseline) and produces no
MatchEvent; and once a non-empty baseline is set, no MatchEvent carrying
that recorded identifier is ever produced across any trace of ticks. -/
theorem initial_baseline_never_matches :
    (∀ (s : MonState) (username : String) (t : Tweet) (ts : List Tweet),
      lookupAssoc (setInitialBaselineForCycling s username
        (.ok (t :: ts))).1.lastProcessedTweetIds username = some (tweetIdOf t) ∧
      matchEventsOf (setInitialBaselineForCycling s username
        (.ok (t :: ts))).2 = []) ∧
    (∀ solE bp (s : MonState) cfg fetch penv now,
      (lookupAssoc s.lastProcessedTweetIds cfg.username = none ∨
       lookupAssoc s.lastProcessedTweetIds cfg.username = some "") →
      checkForNewTweets solE bp s cfg fetch penv now = (s, [])) ∧
    (∀ solE bp u b (ins : List TickInput) (s : MonState),
      lookupAssoc s.lastProcessedTweetIds u = some b → b ≠ "" →
      ∀ r ∈ matchEventsOf (runTrace solE bp s ins).2,
        r.username = u → r.tweetId ≠ b) := by
  refine ⟨?_, ?_, ?_⟩
  · intro s username t ts
    constructor
    · show lookupAssoc (setAssoc s.lastProcessedTweetIds username
        (tweetIdOf t)) username = some (tweetIdOf t)
      exact lookupAssoc_setAssoc_self _ _ _
    · rfl
  · intro solE bp s cfg fetch penv now hmiss
    rcases fetch with e | tl
    · rfl
    · rcases tl with _ | ⟨t, ts⟩
      · rfl
      · rcases hmiss with hmiss | hmiss
        · simp [checkForNewTweets, hmiss]
        · simp [checkForNewTweets, hmiss]
  · intro solE bp u b ins s hb hbne
    exact (runTrace_baseline_inv solE bp u b ins s ⟨b, hb, hbne, Or.inl rfl⟩).2

/-- Witness for C3: initialization from post "101" records baseline "101"
with no MatchEvent; a visit of the baseline-free state changes nothing;
and over a one-tick trace from baseline "100" every MatchEvent for alice
carries an identifier different from "100". -/
theorem initial_baseline_never_matches_witness :
    (lookupAssoc (setInitialBaselineForCycling egStateNoBaseline "alice"
      (.ok [egTweet101])).1.lastProcessedTweetIds "alice" =
        some (tweetIdOf egTweet101) ∧
     matchEventsOf (setInitialBaselineForCycling egStateNoBaseline "alice"
      (.ok [egTweet101])).2 = []) ∧
    checkForNewTweets true "bp" egStateNoBaseline egCfgCoin
      (.ok [egTweet101]) egPenvOk "t0" = (egStateNoBaseline, []) ∧
    (∀ r ∈ matchEventsOf (runTrace true "bp" egStateOne
        [⟨.ok [egTweet101], egPenvOk, "t0"⟩]).2,
      r.username = "alice" → r.tweetId ≠ "100") :=
  ⟨initial_baseline_never_matches.1 egStateNoBaseline "alice" egTweet101 [],
   initial_baseline_never_matches.2.1 true "bp" egStateNoBaseline egCfgCoin
     (.ok [egTweet101]) egPenvOk "t0" (Or.inl (by decide)),
   initial_baseline_never_matches.2.2 true "bp" "alice" "100"
     [⟨.ok [egTweet101], egPenvOk, "t0"⟩] egStateOne (by decide) (by decide)⟩
